import Mathlib

/-!
# Verification of the CSI-246 camera app

A shallow embedding, in Lean 4, of the logic of a small Next.js webcam
application, together with proofs about it.  The application has three
relevant pieces of code:

* the `POST /api/save-image` route handler (`app/api/save-image/route.ts`):
  parses a JSON body, generates a 16-byte random hex file name with a fixed
  `.png` extension, strips a `data:image/<word>;base64,` head from the
  submitted string, base64-decodes the rest and writes it to
  `public/captured-photos`, answering `{success:true, fileName}` on success
  and `{success:false, error}` with HTTP 500 on any thrown error;
* the `FaceDetection` component (`app/components/FaceDetection.tsx`):
  model loading, the `requestAnimationFrame`-driven detection loop, and the
  canvas overlay renderer that draws a detection box and the dominant
  expression label;
* the `WebcamCapture` component: webcam stream acquisition/release across
  mount, retake and unmount.

Effectful pieces (randomness, the file system, promise resolutions, the
`requestAnimationFrame` scheduler, `getUserMedia`) are passed in explicitly
as parameters or environment-chosen events; everything else follows the
source line by line.
-/

/-! ## JSON values

The shape of values produced by `req.json()` / `JSON.parse`. -/

inductive Json where
  | null
  | bool (b : Bool)
  | num (q : ℚ)
  | str (s : String)
  | arr (elems : List Json)
  | obj (fields : List (String × Json))

/-- Property lookup on an object built by `JSON.parse`: with duplicate keys
the last occurrence wins, matching JavaScript semantics. -/
def lookupLast : List (String × Json) → String → Option Json
  | [], _ => none
  | (k, v) :: t, key =>
    match lookupLast t key with
    | some r => some r
    | none => if k = key then some v else none

/-! ## Hex file names

`crypto.randomBytes(16).toString("hex")`: each byte becomes two lowercase
hexadecimal digits. -/

/-- The lowercase hex digit for `n < 16` (`'0'` is 48, `'a'` is 97 = 87 + 10). -/
def hexDigitChar (n : Nat) : Char :=
  if n < 10 then Char.ofNat (48 + n) else Char.ofNat (87 + n)

/-- The two hex digits of one byte, high nibble first. -/
def byteHex (b : Fin 256) : List Char :=
  [hexDigitChar (b.val / 16), hexDigitChar (b.val % 16)]

/-- Hex digits of a byte list, in order. -/
def concatMapHex : List (Fin 256) → List Char
  | [] => []
  | b :: t => byteHex b ++ concatMapHex t

/-- Rendering of `Buffer.toString("hex")` on a byte list. -/
def bytesToHex (bs : List (Fin 256)) : String :=
  String.mk (concatMapHex bs)

/-- Lowercase hexadecimal digit test, i.e. the character class `[0-9a-f]`. -/
def isLowerHexChar (c : Char) : Bool :=
  ('0' ≤ c && c ≤ '9') || ('a' ≤ c && c ≤ 'f')

/-- Full match of the regular expression `^[0-9a-f]{32}\.png$`. -/
def matchesHexPng (s : String) : Bool :=
  let cs := s.toList
  cs.length == 36 && (cs.take 32).all isLowerHexChar &&
    cs.drop 32 == ['.', 'p', 'n', 'g']

/-! ## Stripping the data-URI head

`image.replace(/^data:image\/\w+;base64,/, "")`. -/

/-- JavaScript regex `\w`: the character class `[A-Za-z0-9_]`. -/
def isWordChar (c : Char) : Bool :=
  c.isAlpha || c.isDigit || c == '_'

/-- Removes a literal head from a character list, or fails. -/
def dropStart : List Char → List Char → Option (List Char)
  | [], rest => some rest
  | _ :: _, [] => none
  | p :: ps, c :: cs => if c = p then dropStart ps cs else none

/-- One application of the anchored regex
`/^data:image\/\w+;base64,/` replaced by the empty string: the head is
removed when the input starts with the literal `data:image/`, then one or
more word characters, then the literal `;base64,`; otherwise the input is
returned unchanged. -/
def stripChars (cs : List Char) : List Char :=
  match dropStart ("data:image/".toList) cs with
  | none => cs
  | some r1 =>
    let w := r1.takeWhile isWordChar
    if w = [] then cs
    else
      match dropStart (";base64,".toList) (r1.dropWhile isWordChar) with
      | none => cs
      | some r2 => r2

/-- The call `s.replace(/^data:image\/\w+;base64,/, "")` on strings. -/
def stripDataUriHead (s : String) : String :=
  String.mk (stripChars s.toList)

/-! ## Base64 decoding

`Buffer.from(base64Data, "base64")`: a lenient decoder that skips characters
outside the base64 alphabet (including the `=` padding) and drops trailing
bits that do not fill a byte. -/

/-- Value of one base64 alphabet character, `none` for everything else. -/
def b64Val (c : Char) : Option Nat :=
  if 'A' ≤ c ∧ c ≤ 'Z' then some (c.toNat - 'A'.toNat)
  else if 'a' ≤ c ∧ c ≤ 'z' then some (c.toNat - 'a'.toNat + 26)
  else if '0' ≤ c ∧ c ≤ '9' then some (c.toNat - '0'.toNat + 52)
  else if c = '+' then some 62
  else if c = '/' then some 63
  else none

/-- The six bits of each sextet, most significant first. -/
def sextetsToBits : List Nat → List Bool
  | [] => []
  | n :: t =>
    [n.testBit 5, n.testBit 4, n.testBit 3, n.testBit 2, n.testBit 1,
     n.testBit 0] ++ sextetsToBits t

/-- Value contributed by one bit. -/
def bitVal (b : Bool) (v : Nat) : Nat := if b then v else 0

/-- Packs a bit stream into bytes; fewer than eight leftover bits are dropped. -/
def bitsToBytes : List Bool → List Nat
  | b7 :: b6 :: b5 :: b4 :: b3 :: b2 :: b1 :: b0 :: rest =>
    (bitVal b7 128 + bitVal b6 64 + bitVal b5 32 + bitVal b4 16 +
     bitVal b3 8 + bitVal b2 4 + bitVal b1 2 + bitVal b0 1) :: bitsToBytes rest
  | _ => []

/-- Decoding `Buffer.from(s, "base64")` as a byte list. -/
def b64decode (s : String) : List Nat :=
  bitsToBytes (sextetsToBits (s.toList.filterMap b64Val))

/-! ## The `POST /api/save-image` handler -/

/-- The JSON body of a `NextResponse.json` reply together with its HTTP
status (200 unless overridden). -/
structure SaveResponse where
  status : Nat
  success : Bool
  fileName : Option String
  error : Option String
deriving DecidableEq

/-- The file written by `writeFile(join(publicPath, fileName), buffer)`. -/
structure SavedFile where
  dir : String
  name : String
  bytes : List Nat
deriving DecidableEq

/-- The single failure reply of the handler:
`NextResponse.json({success:false, error:"Failed to save image"}, {status:500})`. -/
def saveErrorResponse : SaveResponse :=
  { status := 500, success := false, fileName := none
    error := some "Failed to save image" }

/-- The `POST` handler of `app/api/save-image/route.ts`.

* `body` is the result of `await req.json()` (`none` when the body is not
  valid JSON, in which case `req.json()` throws);
* `randomBytes` is the outcome of `crypto.randomBytes(16)`;
* `writeOk` is whether `writeFile` succeeds.

Every thrown error lands in the surrounding `try/catch`, which answers
`saveErrorResponse`.  The saved file, when one is written, is returned next
to the response. -/
def savePOST (body : Option Json) (randomBytes : List (Fin 256))
    (writeOk : Bool) : SaveResponse × Option SavedFile :=
  match body with
  | none => (saveErrorResponse, none)
  | some Json.null => (saveErrorResponse, none)
  | some data =>
    let image : Option Json :=
      match data with
      | Json.obj fields => lookupLast fields "image"
      | _ => none
    let randomName := bytesToHex randomBytes
    let fileName := randomName ++ ".png"
    match image with
    | some (Json.str s) =>
      let base64Data := stripDataUriHead s
      let buffer := b64decode base64Data
      if writeOk then
        ({ status := 200, success := true, fileName := some fileName
           error := none },
         some { dir := "public/captured-photos", name := fileName
                bytes := buffer })
      else (saveErrorResponse, none)
    | _ => (saveErrorResponse, none)

/-! ## The overlay renderer of `FaceDetection`

One iteration of `detectExpressions` after the inference resolved, acting on
the overlay canvas.  Numbers are rationals; `measure` stands for
`context.measureText(text).width`, which depends on the font engine and is
therefore a parameter. -/

/-- Width/height pair (video or canvas dimensions). -/
structure Dims where
  w : ℚ
  h : ℚ
deriving DecidableEq

/-- An axis-aligned detection box. -/
structure Box where
  x : ℚ
  y : ℚ
  width : ℚ
  height : ℚ
deriving DecidableEq

/-- The value of `detectSingleFace(video, ...).withFaceExpressions()` when a
face was found: a box in detector coordinates, the dimensions of the frame
the detector saw, and the expression-confidence mapping in its iteration
order (the order of `Object.entries(expressions)`). -/
structure FaceResult where
  box : Box
  imageDims : Dims
  expressions : List (String × ℚ)

/-- The call `faceapi.resizeResults`: rescales a box from the detector frame to the
canvas dimensions. -/
def resizeBox (b : Box) (fromDims toDims : Dims) : Box :=
  { x := b.x * (toDims.w / fromDims.w)
    y := b.y * (toDims.h / fromDims.h)
    width := b.width * (toDims.w / fromDims.w)
    height := b.height * (toDims.h / fromDims.h) }

/-- What has been drawn on the overlay canvas, in drawing order. -/
inductive DrawOp where
  | box (b : Box)
  | strokeTextOp (text : String) (x y : ℚ)
  | fillTextOp (text : String) (x y : ℚ)
deriving DecidableEq

/-- The overlay canvas: its current dimensions and its visible content. -/
structure Canvas where
  width : ℚ
  height : ℚ
  content : List DrawOp
deriving DecidableEq

/-- JavaScript `Math.round`: half-way cases round toward positive infinity. -/
def jsRound (q : ℚ) : ℤ := ⌊q + 1 / 2⌋

/-- One step of the reduction
`(a, b) => a[1] > b[1] ? a : b`. -/
def pickGT (a b : String × ℚ) : String × ℚ :=
  if a.2 > b.2 then a else b

/-- The reduction `Object.entries(expressions).reduce((a, b) => a[1] > b[1] ? a : b)`:
`reduce` without an initial value starts from the first entry and folds the
rest; on an empty list it throws (`none`). -/
def dominantExpression : List (String × ℚ) → Option (String × ℚ)
  | [] => none
  | h :: t => some (t.foldl pickGT h)

/-- One post-inference iteration of `detectExpressions`, from the point
where `detection` is known, acting on the canvas.  `none` as a result means
the iteration threw (the only throwing operation is the empty `reduce`).
The 2d context is assumed available (`getContext` returning null would make
the iteration return before any drawing).

With a face present the code clears the canvas, lets `matchDimensions` set
the canvas size to the video size, draws the resized detection box, and then
strokes and fills the centered dominant-expression text at height 50.  With
no face the body does nothing: the canvas is left exactly as it was. -/
def detectIteration (measure : String → ℚ) (videoDims : Dims) (c : Canvas) :
    Option FaceResult → Option Canvas
  | none => some c
  | some d =>
    let c1 : Canvas := { c with content := [] }
    let dims := videoDims
    let c2 : Canvas := { c1 with width := dims.w, height := dims.h }
    let rBox := resizeBox d.box d.imageDims dims
    let c3 : Canvas := { c2 with content := c2.content ++ [DrawOp.box rBox] }
    match dominantExpression d.expressions with
    | none => none
    | some dom =>
      let text := dom.1 ++ ": " ++ toString (jsRound (dom.2 * 100)) ++ "%"
      let textWidth := measure text
      let x := (c3.width - textWidth) / 2
      some { c3 with
             content := c3.content ++
               [DrawOp.strokeTextOp text x 50, DrawOp.fillTextOp text x 50] }

/-! ## Model-readiness state machine of `FaceDetection`

The component state that gates the detection loop.  Events are the
asynchronous completions the component reacts to:

* `modelsResult ok` — the `Promise.all` of the two `loadFromUri` calls
  settles; on success `setModelsLoaded(true)` runs, on failure the `catch`
  only logs and no state changes;
* `videoPlay` — the `onPlay` handler runs `setIsVideoPlaying(true)`;
* `streamSet` — `startVideo` stored a stream (`setStream`), which touches
  neither readiness flag.

After each state change the detection-loop effect re-runs and invokes
`detectExpressions()` whenever `modelsLoaded && isVideoPlaying`; the
`loopStarted` field records whether that invocation ever happened. -/

inductive FDEvent where
  | modelsResult (ok : Bool)
  | videoPlay
  | streamSet
deriving DecidableEq

structure FDState where
  modelsLoaded : Bool
  isVideoPlaying : Bool
  loopStarted : Bool
deriving DecidableEq

/-- Initial component state: `useState(false)` for both flags. -/
def fdInit : FDState :=
  { modelsLoaded := false, isVideoPlaying := false, loopStarted := false }

/-- Re-evaluation of the detection-loop effect after a render: the effect
body runs `detectExpressions()` exactly when both flags are set. -/
def fdLoopEffect (s : FDState) : FDState :=
  { s with loopStarted := s.loopStarted || (s.modelsLoaded && s.isVideoPlaying) }

/-- One event of the `FaceDetection` component. -/
def fdStep (s : FDState) : FDEvent → FDState
  | FDEvent.modelsResult ok =>
    if ok then fdLoopEffect { s with modelsLoaded := true } else s
  | FDEvent.videoPlay => fdLoopEffect { s with isVideoPlaying := true }
  | FDEvent.streamSet => s

/-- A run of the component from mount. -/
def fdRun (evs : List FDEvent) : FDState :=
  evs.foldl fdStep fdInit

/-- Number of `false → true` transitions of `modelsLoaded` along a run. -/
def mlFlips (s : FDState) : List FDEvent → Nat
  | [] => 0
  | e :: t =>
    (if !s.modelsLoaded && (fdStep s e).modelsLoaded then 1 else 0) +
      mlFlips (fdStep s e) t

/-- The JSX renders the `Loading models...` overlay iff `!modelsLoaded`. -/
def showsLoadingOverlay (s : FDState) : Bool :=
  !s.modelsLoaded

/-! ## The detection loop as a transition system

One instance of the `detectExpressions` loop (one run of the detection
effect whose guard passed), driven by environment events:

* `resolve face ctxOk` — the awaited `detectSingleFace(...)` promise
  resolves; `face` says whether a detection came back, `ctxOk` whether
  `canvas.getContext("2d")` is non-null.  On a face with a context the
  continuation draws and then stores `requestAnimationFrame(detectExpressions)`
  in `animationFrameId`; on a face without a context it returns before
  scheduling; with no face it only schedules.
* `fire guardOk` — a scheduled animation-frame callback runs; `guardOk` is
  the guard `videoRef.current && canvasRef.current && isVideoPlaying`: when
  it holds a new inference starts, otherwise the callback returns at once.
* `cleanup` — the effect cleanup: `if (animationFrameId)
  cancelAnimationFrame(animationFrameId)`.

`postDraws` and `postFires` count canvas draws and callback invocations
that happen after the cleanup ran. -/

inductive LoopEvent where
  | resolve (face ctxOk : Bool)
  | fire (guardOk : Bool)
  | cleanup
deriving DecidableEq

structure LoopState where
  /-- Number of `detectSingleFace` calls started and not yet resolved. -/
  inFlight : Nat
  /-- Ids of animation-frame callbacks scheduled and not yet fired/cancelled. -/
  scheduled : List Nat
  /-- Current value of the `animationFrameId` variable (`none` = undefined). -/
  frameId : Option Nat
  /-- Next fresh callback id (`requestAnimationFrame` ids are positive). -/
  nextId : Nat
  /-- Whether the effect cleanup has run. -/
  tornDown : Bool
  /-- Draws to the overlay canvas performed after the cleanup ran. -/
  postDraws : Nat
  /-- Animation-frame callbacks that fired after the cleanup ran. -/
  postFires : Nat
deriving DecidableEq

/-- The loop right after the effect body called `detectExpressions()` with a
passing guard: one inference is in flight, nothing is scheduled, and
`animationFrameId` is still undefined. -/
def loopInit : LoopState :=
  { inFlight := 1, scheduled := [], frameId := none, nextId := 1
    tornDown := false, postDraws := 0, postFires := 0 }

/-- One environment event; `none` when the event is not enabled (no promise
to resolve, no callback to fire, cleanup already ran). -/
def loopStep (s : LoopState) : LoopEvent → Option LoopState
  | LoopEvent.resolve face ctxOk =>
    if s.inFlight = 0 then none
    else if face && !ctxOk then
      some { s with inFlight := s.inFlight - 1 }
    else
      some { s with
             inFlight := s.inFlight - 1
             scheduled := s.nextId :: s.scheduled
             frameId := some s.nextId
             nextId := s.nextId + 1
             postDraws := s.postDraws +
               (if s.tornDown && face then 1 else 0) }
  | LoopEvent.fire guardOk =>
    match s.scheduled with
    | [] => none
    | _ :: rest =>
      some { s with
             scheduled := rest
             postFires := s.postFires + (if s.tornDown then 1 else 0)
             inFlight := s.inFlight + (if guardOk then 1 else 0) }
  | LoopEvent.cleanup =>
    if s.tornDown then none
    else
      some { s with
             tornDown := true
             scheduled :=
               match s.frameId with
               | some id => s.scheduled.erase id
               | none => s.scheduled }

/-- Runs a list of events from a given state, failing on a disabled event. -/
def runLoopFrom (s : LoopState) : List LoopEvent → Option LoopState
  | [] => some s
  | e :: t =>
    match loopStep s e with
    | none => none
    | some s' => runLoopFrom s' t

/-- Runs a list of events from the start of the loop. -/
def runLoop (evs : List LoopEvent) : Option LoopState :=
  runLoopFrom loopInit evs

/-! ## Webcam stream ownership in `WebcamCapture`

Stream handles are numbered in acquisition order; `live` lists the streams
whose tracks have not been stopped (the camera hardware they hold is still
on).  `cleanupCaptured` is the value of the `stream` state variable captured
by the closure that the mount effect returned: the effect has an empty
dependency list, so it runs once, during the first render, when `stream` is
still `null`. -/

structure WCState where
  /-- The `stream` React state variable. -/
  stream : Option Nat
  /-- Streams whose tracks are live (not yet stopped). -/
  live : List Nat
  /-- Value of `stream` as captured by the unmount cleanup closure. -/
  cleanupCaptured : Option Nat
  /-- Next fresh stream id. -/
  nextStream : Nat
deriving DecidableEq

/-- State at the first render, before the mount effect body runs. -/
def wcInit : WCState :=
  { stream := none, live := [], cleanupCaptured := none, nextStream := 0 }

/-- The function `startVideo`: stop the tracks of the current `stream` state if any, then
`getUserMedia`; on success (`ok`), if the video ref is attached
(`refPresent`) the new stream is stored with `setStream`. -/
def startVideoStep (s : WCState) (ok refPresent : Bool) : WCState :=
  let live1 :=
    match s.stream with
    | some id => s.live.erase id
    | none => s.live
  if ok then
    let id := s.nextStream
    if refPresent then
      { s with stream := some id, live := id :: live1, nextStream := id + 1 }
    else
      { s with live := id :: live1, nextStream := id + 1 }
  else
    { s with live := live1 }

inductive WCEvent where
  | startVideo (ok refPresent : Bool)
  | unmount
deriving DecidableEq

/-- One event of the `WebcamCapture` component: `startVideo` runs on mount
and on every retake; `unmount` runs the cleanup the mount effect returned,
which stops the tracks of the `stream` value it captured. -/
def wcStep (s : WCState) : WCEvent → WCState
  | WCEvent.startVideo ok refPresent => startVideoStep s ok refPresent
  | WCEvent.unmount =>
    match s.cleanupCaptured with
    | some id => { s with live := s.live.erase id }
    | none => s

/-- A run of the component from the first render. -/
def wcRun (evs : List WCEvent) : WCState :=
  evs.foldl wcStep wcInit

/-! ## Helper lemmas: hex names -/

theorem hexDigitChar_lower :
    ∀ n : Fin 16, isLowerHexChar (hexDigitChar n.val) = true := by decide

theorem byteHex_lower (b : Fin 256) :
    ∀ c ∈ byteHex b, isLowerHexChar c = true := by
  intro c hc
  have hb := b.isLt
  have h1 : b.val / 16 < 16 := by omega
  have h2 : b.val % 16 < 16 := Nat.mod_lt _ (by norm_num)
  simp only [byteHex, List.mem_cons, List.not_mem_nil, or_false] at hc
  rcases hc with h | h <;> subst h
  · exact hexDigitChar_lower ⟨_, h1⟩
  · exact hexDigitChar_lower ⟨_, h2⟩

theorem concatMapHex_length (bs : List (Fin 256)) :
    (concatMapHex bs).length = 2 * bs.length := by
  induction bs with
  | nil => rfl
  | cons b t ih =>
    simp only [concatMapHex, byteHex, List.length_append, List.length_cons,
      List.length_nil, ih]
    omega

theorem concatMapHex_lower (bs : List (Fin 256)) :
    ∀ c ∈ concatMapHex bs, isLowerHexChar c = true := by
  induction bs with
  | nil => intro c hc; simp [concatMapHex] at hc
  | cons b t ih =>
    intro c hc
    simp only [concatMapHex, List.mem_append] at hc
    rcases hc with h | h
    · exact byteHex_lower b c h
    · exact ih c h

theorem matchesHexPng_of (bs : List (Fin 256)) (h : bs.length = 16) :
    matchesHexPng (bytesToHex bs ++ ".png") = true := by
  have hdata : (bytesToHex bs ++ ".png").toList =
      concatMapHex bs ++ ['.', 'p', 'n', 'g'] := rfl
  have hlen32 : (concatMapHex bs).length = 32 := by
    rw [concatMapHex_length, h]
  have htake : (concatMapHex bs ++ ['.', 'p', 'n', 'g']).take 32 =
      concatMapHex bs := by
    rw [← hlen32]; exact List.take_left _ _
  have hdrop : (concatMapHex bs ++ ['.', 'p', 'n', 'g']).drop 32 =
      ['.', 'p', 'n', 'g'] := by
    rw [← hlen32]; exact List.drop_left _ _
  simp only [matchesHexPng, hdata, Bool.and_eq_true]
  refine ⟨⟨?_, ?_⟩, ?_⟩
  · rw [List.length_append, hlen32]; rfl
  · rw [htake, List.all_eq_true]
    exact fun c hc => concatMapHex_lower bs c hc
  · rw [hdrop]; rfl

/-! ## Helper lemmas: the data-URI head -/

theorem dropStart_self (pre rest : List Char) :
    dropStart pre (pre ++ rest) = some rest := by
  induction pre with
  | nil => rfl
  | cons c cs ih => simp [dropStart, ih]

theorem takeWhile_word_semi (w tail : List Char) (hw : w.all isWordChar = true) :
    (w ++ ';' :: tail).takeWhile isWordChar = w ∧
    (w ++ ';' :: tail).dropWhile isWordChar = ';' :: tail := by
  induction w with
  | nil => exact ⟨rfl, rfl⟩
  | cons c cs ih =>
    simp only [List.all_cons, Bool.and_eq_true] at hw
    have := ih hw.2
    simp [List.takeWhile_cons, List.dropWhile_cons, hw.1, this.1, this.2]

theorem stripChars_strip (w p : List Char) (hw1 : w ≠ [])
    (hw2 : w.all isWordChar = true) :
    stripChars ("data:image/".toList ++ (w ++ (";base64,".toList ++ p))) = p := by
  have hsemi : ";base64,".toList ++ p = ';' :: ("base64,".toList ++ p) := rfl
  have htw := takeWhile_word_semi w ("base64,".toList ++ p) hw2
  simp only [stripChars, dropStart_self]
  rw [hsemi, htw.1, htw.2, if_neg hw1, ← hsemi, dropStart_self]

theorem stripDataUriHead_strip (w payload : String) (hw1 : w.toList ≠ [])
    (hw2 : w.toList.all isWordChar = true) :
    stripDataUriHead ("data:image/" ++ w ++ ";base64," ++ payload) = payload := by
  have hdata : ("data:image/" ++ w ++ ";base64," ++ payload).toList =
      "data:image/".toList ++ (w.toList ++ (";base64,".toList ++ payload.toList)) := by
    show ("data:image/".data ++ w.data ++ ";base64,".data ++ payload.data) = _
    simp [List.append_assoc]
  unfold stripDataUriHead
  rw [hdata, stripChars_strip _ _ hw1 hw2]
  rfl

/-! ## Helper lemmas: the dominant-expression reduction -/

theorem foldl_pickGT_lt (l : List (String × ℚ)) (acc : String × ℚ)
    (h : ∀ x ∈ l, x.2 < acc.2) : l.foldl pickGT acc = acc := by
  induction l with
  | nil => rfl
  | cons x t ih =>
    have hx : acc.2 > x.2 := h x (List.mem_cons_self x t)
    have : pickGT acc x = acc := by simp [pickGT, hx]
    simp only [List.foldl_cons, this]
    exact ih fun y hy => h y (List.mem_cons_of_mem x hy)

theorem foldl_pickGT_last (l₁ : List (String × ℚ)) (e : String × ℚ)
    (l₂ : List (String × ℚ)) (acc : String × ℚ) (hacc : acc.2 ≤ e.2)
    (h₁ : ∀ x ∈ l₁, x.2 ≤ e.2) (h₂ : ∀ x ∈ l₂, x.2 < e.2) :
    (l₁ ++ e :: l₂).foldl pickGT acc = e := by
  induction l₁ generalizing acc with
  | nil =>
    have : pickGT acc e = e := by
      simp only [pickGT, if_neg (not_lt.mpr hacc)]
    simp only [List.nil_append, List.foldl_cons, this]
    exact foldl_pickGT_lt l₂ e h₂
  | cons x t ih =>
    have hx : x.2 ≤ e.2 := h₁ x (List.mem_cons_self x t)
    have hstep : (pickGT acc x).2 ≤ e.2 := by
      unfold pickGT
      split <;> assumption
    simp only [List.cons_append, List.foldl_cons]
    exact ih (pickGT acc x) hstep fun y hy => h₁ y (List.mem_cons_of_mem x hy)

/-! ## Helper lemmas: the detection-loop transition system -/

/-- Reachability invariant of the loop: at most one inference or scheduled
callback exists in total; while the loop is not torn down, every scheduled
callback id is the one stored in `animationFrameId` and nothing has happened
after teardown yet. -/
def LoopInv (s : LoopState) : Prop :=
  s.inFlight + s.scheduled.length ≤ 1 ∧
  (s.tornDown = false →
    (∀ id ∈ s.scheduled, s.frameId = some id) ∧
    s.postDraws = 0 ∧ s.postFires = 0)

theorem loopInit_inv : LoopInv loopInit := by
  constructor
  · simp [loopInit]
  · intro _
    refine ⟨?_, rfl, rfl⟩
    intro id hid
    simp [loopInit] at hid

theorem loopStep_inv (s s' : LoopState) (e : LoopEvent)
    (hstep : loopStep s e = some s') (hinv : LoopInv s) : LoopInv s' := by
  obtain ⟨h1, h2⟩ := hinv
  cases e with
  | resolve face ctxOk =>
    simp only [loopStep] at hstep
    by_cases hz : s.inFlight = 0
    · simp [hz] at hstep
    · rw [if_neg hz] at hstep
      by_cases hfc : (face && !ctxOk) = true
      · rw [if_pos hfc] at hstep
        obtain rfl := Option.some.inj hstep
        constructor
        · simp only; omega
        · intro ht
          exact h2 ht
      · rw [if_neg hfc] at hstep
        obtain rfl := Option.some.inj hstep
        constructor
        · simp only [List.length_cons]
          omega
        · intro ht
          simp only at ht
          obtain ⟨ha, hb, hc⟩ := h2 ht
          refine ⟨?_, ?_, hc⟩
          · intro id hid
            simp only [List.mem_cons] at hid
            rcases hid with rfl | hid
            · rfl
            · exfalso
              have : s.scheduled.length = 0 := by omega
              rw [List.length_eq_zero] at this
              rw [this] at hid
              simp at hid
          · simp [ht, hb]
  | fire guardOk =>
    simp only [loopStep] at hstep
    cases hsch : s.scheduled with
    | nil => rw [hsch] at hstep; simp at hstep
    | cons id rest =>
      rw [hsch] at hstep
      obtain rfl := Option.some.inj hstep
      have hlen : s.inFlight = 0 ∧ rest.length = 0 := by
        rw [hsch] at h1; simp only [List.length_cons] at h1; omega
      constructor
      · simp only
        split <;> omega
      · intro ht
        simp only at ht
        obtain ⟨ha, hb, hc⟩ := h2 ht
        refine ⟨?_, hb, ?_⟩
        · intro i hi
          exact ha i (by rw [hsch]; exact List.mem_cons_of_mem id hi)
        · simp [ht, hc]
  | cleanup =>
    simp only [loopStep] at hstep
    by_cases ht : s.tornDown
    · simp [ht] at hstep
    · rw [if_neg ht] at hstep
      obtain rfl := Option.some.inj hstep
      constructor
      · simp only
        have : (match s.frameId with
            | some id => s.scheduled.erase id
            | none => s.scheduled).length ≤ s.scheduled.length := by
          cases s.frameId with
          | none => exact le_refl _
          | some id => exact (s.scheduled.erase_sublist id).length_le
        omega
      · intro hcontr
        simp at hcontr

theorem runLoopFrom_inv (evs : List LoopEvent) (s s' : LoopState)
    (hrun : runLoopFrom s evs = some s') (hinv : LoopInv s) : LoopInv s' := by
  induction evs generalizing s with
  | nil =>
    simp only [runLoopFrom] at hrun
    obtain rfl := Option.some.inj hrun
    exact hinv
  | cons e t ih =>
    simp only [runLoopFrom] at hrun
    cases hstep : loopStep s e with
    | none => rw [hstep] at hrun; simp at hrun
    | some s₁ =>
      rw [hstep] at hrun
      exact ih s₁ hrun (loopStep_inv s s₁ e hstep hinv)

theorem runLoop_inv (evs : List LoopEvent) (s : LoopState)
    (hrun : runLoop evs = some s) : LoopInv s :=
  runLoopFrom_inv evs loopInit s hrun loopInit_inv

/-! ## Helper lemmas: the model-readiness machine -/

theorem fdStep_ml_mono (s : FDState) (e : FDEvent)
    (h : s.modelsLoaded = true) : (fdStep s e).modelsLoaded = true := by
  cases e with
  | modelsResult ok => cases ok <;> simp [fdStep, fdLoopEffect, h]
  | videoPlay => simp [fdStep, fdLoopEffect, h]
  | streamSet => exact h

theorem mlFlips_zero (evs : List FDEvent) (s : FDState)
    (h : s.modelsLoaded = true) : mlFlips s evs = 0 := by
  induction evs generalizing s with
  | nil => rfl
  | cons e t ih =>
    have hnext := ih (fdStep s e) (fdStep_ml_mono s e h)
    simp [mlFlips, h, hnext]

theorem mlFlips_le_one (evs : List FDEvent) (s : FDState) :
    mlFlips s evs ≤ 1 := by
  induction evs generalizing s with
  | nil => simp [mlFlips]
  | cons e t ih =>
    by_cases h : s.modelsLoaded = true
    · rw [mlFlips_zero (e :: t) s h]
      omega
    · simp only [mlFlips]
      by_cases h2 : (fdStep s e).modelsLoaded = true
      · rw [mlFlips_zero t _ h2]
        simp [Bool.not_eq_true] at h
        simp [h, h2]
      · simp [Bool.not_eq_true] at h h2
        simp [h, h2]
        exact ih (fdStep s e)

theorem fdFoldl_fail_closed (evs : List FDEvent) (s : FDState)
    (h1 : s.modelsLoaded = false) (h2 : s.loopStarted = false)
    (hev : ∀ e ∈ evs, e ≠ FDEvent.modelsResult true) :
    (evs.foldl fdStep s).modelsLoaded = false ∧
      (evs.foldl fdStep s).loopStarted = false := by
  induction evs generalizing s with
  | nil => exact ⟨h1, h2⟩
  | cons e t ih =>
    have he : e ≠ FDEvent.modelsResult true := hev e (List.mem_cons_self e t)
    have hstep : (fdStep s e).modelsLoaded = false ∧
        (fdStep s e).loopStarted = false := by
      cases e with
      | modelsResult ok =>
        cases ok
        · exact ⟨h1, h2⟩
        · exact absurd rfl he
      | videoPlay => simp [fdStep, fdLoopEffect, h1, h2]
      | streamSet => exact ⟨h1, h2⟩
    simp only [List.foldl_cons]
    exact ih (fdStep s e) hstep.1 hstep.2
      fun e' he' => hev e' (List.mem_cons_of_mem e he')

/-! ## Claim theorems -/

/-- C1: for every POST body that is a JSON object whose `image` field holds a
well-formed PNG data-URI string, when the 16 random bytes and the disk write
are supplied by the environment the handler answers
`{success: true, fileName}` with HTTP status 200, and the file name fully
matches the regular expression `^[0-9a-f]{32}\.png$` (32 lowercase hex
characters from the 16 random bytes, plus the fixed `.png` extension). -/
theorem save_image_wellformed_png_success
    (fields : List (String × Json)) (payload : String) (rb : List (Fin 256))
    (himg : lookupLast fields "image" =
      some (Json.str ("data:image/png;base64," ++ payload)))
    (hlen : rb.length = 16) :
    (savePOST (some (Json.obj fields)) rb true).1 =
      { status := 200, success := true
        fileName := some (bytesToHex rb ++ ".png"), error := none } ∧
    matchesHexPng (bytesToHex rb ++ ".png") = true := by
  constructor
  · simp [savePOST, himg]
  · exact matchesHexPng_of rb hlen

/-- Witness for C1 at a concrete request: `{"image":
"data:image/png;base64,AAAA"}` with sixteen zero bytes of randomness. -/
theorem save_image_wellformed_png_success_witness :
    (savePOST
        (some (Json.obj [("image", Json.str ("data:image/png;base64," ++ "AAAA"))]))
        (List.replicate 16 (0 : Fin 256)) true).1 =
      { status := 200, success := true
        fileName := some (bytesToHex (List.replicate 16 (0 : Fin 256)) ++ ".png")
        error := none } ∧
    matchesHexPng (bytesToHex (List.replicate 16 (0 : Fin 256)) ++ ".png") = true :=
  save_image_wellformed_png_success
    [("image", Json.str ("data:image/png;base64," ++ "AAAA"))] "AAAA"
    (List.replicate 16 (0 : Fin 256)) rfl (by simp)

/-- C8: a malformed POST body — one that is not valid JSON, or whose parsed
value is not an object carrying a string in the `image` field — makes the
handler answer `{success: false, error: "Failed to save image"}` with HTTP
status 500; moreover every failure response of the handler (including a
failed disk write) is exactly that one shape. -/
theorem save_image_malformed_500 :
    (∀ (rb : List (Fin 256)) (writeOk : Bool),
      savePOST none rb writeOk = (saveErrorResponse, none)) ∧
    (∀ (j : Json) (rb : List (Fin 256)) (writeOk : Bool),
      (¬ ∃ fields s, j = Json.obj fields ∧
          lookupLast fields "image" = some (Json.str s)) →
      savePOST (some j) rb writeOk = (saveErrorResponse, none)) ∧
    (∀ (body : Option Json) (rb : List (Fin 256)) (writeOk : Bool),
      (savePOST body rb writeOk).1.success = false →
      (savePOST body rb writeOk).1 = saveErrorResponse) ∧
    saveErrorResponse.status = 500 ∧ saveErrorResponse.success = false ∧
      saveErrorResponse.error = some "Failed to save image" := by
  refine ⟨fun rb writeOk => rfl, ?_, ?_, rfl, rfl, rfl⟩
  · intro j rb writeOk h
    cases j with
    | null => rfl
    | bool b => rfl
    | num q => rfl
    | str s => rfl
    | arr elems => rfl
    | obj fields =>
      cases hlk : lookupLast fields "image" with
      | none => simp [savePOST, hlk]
      | some v =>
        cases v with
        | str s => exact absurd ⟨fields, s, rfl, hlk⟩ h
        | null => simp [savePOST, hlk]
        | bool b => simp [savePOST, hlk]
        | num q => simp [savePOST, hlk]
        | arr elems => simp [savePOST, hlk]
        | obj f2 => simp [savePOST, hlk]
  · intro body rb writeOk hfail
    cases body with
    | none => rfl
    | some j =>
      cases j with
      | null => rfl
      | bool b => rfl
      | num q => rfl
      | str s => rfl
      | arr elems => rfl
      | obj fields =>
        cases hlk : lookupLast fields "image" with
        | none => simp [savePOST, hlk]
        | some v =>
          cases v with
          | str s =>
            cases writeOk with
            | false => simp [savePOST, hlk]
            | true => simp [savePOST, hlk] at hfail
          | null => simp [savePOST, hlk]
          | bool b => simp [savePOST, hlk]
          | num q => simp [savePOST, hlk]
          | arr elems => simp [savePOST, hlk]
          | obj f2 => simp [savePOST, hlk]

/-- Witness for C8: the body `[1]` (valid JSON, but no usable `image`
string) gets the 500 failure reply. -/
theorem save_image_malformed_500_witness :
    savePOST (some (Json.arr [Json.num 1])) [] true = (saveErrorResponse, none) :=
  save_image_malformed_500.2.1 (Json.arr [Json.num 1]) [] true
    (by rintro ⟨fields, s, h, -⟩; cases h)

/-- C10: for every media-type word `w` (such as `jpeg`), a body whose
`image` field is `data:image/<w>;base64,<payload>` is accepted: the head is
stripped for any word, the decoded payload bytes are written unchanged, and
the stored name still matches `^[0-9a-f]{32}\.png$` — so for instance JPEG
bytes end up in a `.png`-named file. -/
theorem save_image_any_media_type (w payload : String)
    (fields : List (String × Json)) (rb : List (Fin 256))
    (hw1 : w.toList ≠ []) (hw2 : w.toList.all isWordChar = true)
    (hlen : rb.length = 16)
    (himg : lookupLast fields "image" =
      some (Json.str ("data:image/" ++ w ++ ";base64," ++ payload))) :
    savePOST (some (Json.obj fields)) rb true =
      ({ status := 200, success := true
         fileName := some (bytesToHex rb ++ ".png"), error := none },
       some { dir := "public/captured-photos"
              name := bytesToHex rb ++ ".png"
              bytes := b64decode payload }) ∧
    matchesHexPng (bytesToHex rb ++ ".png") = true := by
  constructor
  · simp [savePOST, himg, stripDataUriHead_strip w payload hw1 hw2]
  · exact matchesHexPng_of rb hlen

/-- Witness for C10: a `data:image/jpeg;base64,/9j/4AA=` submission is
stored under the `.png` name while its decoded bytes keep the JPEG
signature ff d8 ff. -/
theorem save_image_any_media_type_witness :
    (savePOST
        (some (Json.obj
          [("image", Json.str ("data:image/" ++ "jpeg" ++ ";base64," ++ "/9j/4AA="))]))
        (List.replicate 16 (0 : Fin 256)) true =
      ({ status := 200, success := true
         fileName := some (bytesToHex (List.replicate 16 (0 : Fin 256)) ++ ".png")
         error := none },
       some { dir := "public/captured-photos"
              name := bytesToHex (List.replicate 16 (0 : Fin 256)) ++ ".png"
              bytes := b64decode "/9j/4AA=" }) ∧
      matchesHexPng (bytesToHex (List.replicate 16 (0 : Fin 256)) ++ ".png") = true) ∧
    b64decode "/9j/4AA=" = [255, 216, 255, 224, 0] :=
  ⟨save_image_any_media_type "jpeg" "/9j/4AA="
      [("image", Json.str ("data:image/" ++ "jpeg" ++ ";base64," ++ "/9j/4AA="))]
      (List.replicate 16 (0 : Fin 256)) (by decide) (by decide) (by simp) rfl,
    by decide⟩


/-! ## Helper lemmas: concrete renderer evaluations

Rational arithmetic does not reduce inside `decide`, so the concrete
evaluations used below are carried out by `norm_num`. -/

theorem jsRound_90 : jsRound ((9 : ℚ)/10 * 100) = 90 := by
  have h : (9 : ℚ)/10 * 100 = 90 := by norm_num
  rw [jsRound, h]
  norm_num

theorem text_happy90 :
    "happy" ++ ": " ++ toString (jsRound ((9 : ℚ)/10 * 100)) ++ "%" =
      "happy: 90%" := by
  rw [jsRound_90]
  decide

theorem dominant_happy_sad :
    dominantExpression [("happy", (9 : ℚ)/10), ("sad", (1 : ℚ)/10)] =
      some ("happy", (9 : ℚ)/10) := by
  show some (pickGT ("happy", (9 : ℚ)/10) ("sad", (1 : ℚ)/10)) = _
  rw [pickGT, if_pos (by norm_num)]

theorem dominant_happy_neutral_sad :
    dominantExpression
        [("happy", (9 : ℚ)/10), ("neutral", (1 : ℚ)/20), ("sad", (1 : ℚ)/20)] =
      some ("happy", (9 : ℚ)/10) := by
  show some (pickGT (pickGT ("happy", (9 : ℚ)/10) ("neutral", (1 : ℚ)/20))
      ("sad", (1 : ℚ)/20)) = _
  have h1 : pickGT ("happy", (9 : ℚ)/10) ("neutral", (1 : ℚ)/20) =
      ("happy", (9 : ℚ)/10) := by
    rw [pickGT, if_pos (by norm_num)]
  rw [h1, pickGT, if_pos (by norm_num)]

theorem face_frame_eval (c : Canvas) :
    detectIteration (fun _ => (100 : ℚ)) ⟨640, 480⟩ c
        (some ⟨⟨0, 0, 100, 100⟩, ⟨640, 480⟩, [("happy", 9/10), ("sad", 1/10)]⟩) =
      some ⟨640, 480, [DrawOp.box ⟨0, 0, 100, 100⟩,
        DrawOp.strokeTextOp "happy: 90%" 270 50,
        DrawOp.fillTextOp "happy: 90%" 270 50]⟩ := by
  simp only [detectIteration, dominant_happy_sad, text_happy90, List.nil_append]
  norm_num [resizeBox, Canvas.mk.injEq, Box.mk.injEq, DrawOp.box.injEq,
    DrawOp.strokeTextOp.injEq, DrawOp.fillTextOp.injEq]

/-- C2, counterexample: the claim predicts that on a tie the FIRST entry in
iteration order wins, so on `[("angry", 1/2), ("happy", 1/2)]` it predicts
`("angry", 1/2)`; the reduction in the code actually returns the LAST tied
entry, `("happy", 1/2)`, because the strict comparison `a[1] > b[1]` keeps
the accumulator only when it is strictly greater. -/
theorem dominant_tie_first_entry_cex :
    dominantExpression [("angry", (1 : ℚ)/2), ("happy", (1 : ℚ)/2)] =
      some ("happy", (1 : ℚ)/2) ∧
    (("happy", (1 : ℚ)/2) : String × ℚ) ≠ ("angry", (1 : ℚ)/2) := by
  constructor
  · show some (pickGT ("angry", (1 : ℚ)/2) ("happy", (1 : ℚ)/2)) = _
    rw [pickGT, if_neg (by norm_num)]
  · simp

/-- C2, amended: the dominant expression is selected by a reduction using
strict greater-than comparison, and when two or more entries tie for the
highest confidence, the LAST entry encountered in the mapping's iteration
order wins: whenever every entry before `e` scores at most `e` and every
entry after `e` scores strictly below `e`, the reduction returns `e`. -/
theorem dominant_tie_last_entry (l₁ l₂ : List (String × ℚ)) (e : String × ℚ)
    (h₁ : ∀ x ∈ l₁, x.2 ≤ e.2) (h₂ : ∀ x ∈ l₂, x.2 < e.2) :
    dominantExpression (l₁ ++ e :: l₂) = some e := by
  cases l₁ with
  | nil =>
    simp only [List.nil_append, dominantExpression]
    rw [foldl_pickGT_lt l₂ e h₂]
  | cons h t =>
    simp only [List.cons_append, dominantExpression]
    rw [foldl_pickGT_last t e l₂ h (h₁ h (List.mem_cons_self h t))
      (fun y hy => h₁ y (List.mem_cons_of_mem h hy)) h₂]

/-- Witness for the amended C2 on a concrete three-way mapping with a tie:
the last of the two tied entries wins. -/
theorem dominant_tie_last_entry_witness :
    dominantExpression
        ([("angry", (1 : ℚ)/2)] ++ ("happy", (1 : ℚ)/2) :: [("sad", (1 : ℚ)/4)]) =
      some ("happy", (1 : ℚ)/2) :=
  dominant_tie_last_entry [("angry", (1 : ℚ)/2)] [("sad", (1 : ℚ)/4)]
    ("happy", (1 : ℚ)/2) (by norm_num) (by norm_num)

/-- C3, counterexample: a face-frame draws a box and the expression text;
the following no-face frame is claimed to leave the surface cleared with no
box and no text, but the code's `clearRect` sits inside the face branch
only, so after the no-face frame the surface still holds the previous
frame's box and text. -/
theorem noface_stale_overlay_cex :
    Option.bind
        (detectIteration (fun _ => (100 : ℚ)) ⟨640, 480⟩ ⟨640, 480, []⟩
          (some ⟨⟨0, 0, 100, 100⟩, ⟨640, 480⟩, [("happy", 9/10), ("sad", 1/10)]⟩))
        (fun c1 => detectIteration (fun _ => (100 : ℚ)) ⟨640, 480⟩ c1 none) =
      some ⟨640, 480, [DrawOp.box ⟨0, 0, 100, 100⟩,
        DrawOp.strokeTextOp "happy: 90%" 270 50,
        DrawOp.fillTextOp "happy: 90%" 270 50]⟩ := by
  rw [face_frame_eval]
  rfl

/-- C3, amended: a no-face iteration leaves the drawing surface exactly as
it was (stale boxes and text from an earlier face frame persist — nothing is
cleared), while a face iteration clears the whole surface before drawing,
so its result is independent of whatever the surface held before. -/
theorem noface_keeps_surface_face_clears :
    (∀ (m : String → ℚ) (vd : Dims) (c : Canvas),
      detectIteration m vd c none = some c) ∧
    (∀ (m : String → ℚ) (vd : Dims) (c₁ c₂ : Canvas) (d : FaceResult)
      (r₁ r₂ : Canvas),
      detectIteration m vd c₁ (some d) = some r₁ →
      detectIteration m vd c₂ (some d) = some r₂ → r₁ = r₂) := by
  constructor
  · intro m vd c
    rfl
  · intro m vd c₁ c₂ d r₁ r₂ h₁ h₂
    simp only [detectIteration] at h₁ h₂
    cases hdom : dominantExpression d.expressions with
    | none =>
      rw [hdom] at h₁
      simp at h₁
    | some dom =>
      rw [hdom] at h₁ h₂
      simp only [Option.some.injEq] at h₁ h₂
      rw [← h₁, ← h₂]

/-- Witness for the amended C3: two different starting canvases (one empty,
one already holding a box) produce the same face-frame result, and the
no-face frame returns its canvas untouched. -/
theorem noface_keeps_surface_face_clears_witness :
    detectIteration (fun _ => (100 : ℚ)) ⟨640, 480⟩
        ⟨640, 480, [DrawOp.box ⟨1, 1, 2, 2⟩]⟩ none =
      some ⟨640, 480, [DrawOp.box ⟨1, 1, 2, 2⟩]⟩ ∧
    (⟨640, 480, [DrawOp.box ⟨0, 0, 100, 100⟩,
        DrawOp.strokeTextOp "happy: 90%" 270 50,
        DrawOp.fillTextOp "happy: 90%" 270 50]⟩ : Canvas) =
      ⟨640, 480, [DrawOp.box ⟨0, 0, 100, 100⟩,
        DrawOp.strokeTextOp "happy: 90%" 270 50,
        DrawOp.fillTextOp "happy: 90%" 270 50]⟩ :=
  ⟨noface_keeps_surface_face_clears.1 (fun _ => (100 : ℚ)) ⟨640, 480⟩
      ⟨640, 480, [DrawOp.box ⟨1, 1, 2, 2⟩]⟩,
    noface_keeps_surface_face_clears.2 (fun _ => (100 : ℚ)) ⟨640, 480⟩
      ⟨640, 480, []⟩ ⟨37, 19, [DrawOp.box ⟨1, 1, 2, 2⟩]⟩
      ⟨⟨0, 0, 100, 100⟩, ⟨640, 480⟩, [("happy", 9/10), ("sad", 1/10)]⟩
      _ _ (face_frame_eval ⟨640, 480, []⟩)
      (face_frame_eval ⟨37, 19, [DrawOp.box ⟨1, 1, 2, 2⟩]⟩)⟩

/-- C9: on the mapping `{happy: 0.9, neutral: 0.05, sad: 0.05}` the renderer
selects `happy`, formats the text as the label, a colon and the confidence
times 100 rounded to the nearest integer followed by a percent sign —
`happy: 90%` — and places it horizontally centered at
`x = (canvas.width - textWidth) / 2`, stroked then filled. -/
theorem renderer_happy_90_centered (m : String → ℚ) (c : Canvas) (vd : Dims)
    (b : Box) (idim : Dims) :
    detectIteration m vd c
        (some { box := b, imageDims := idim
                expressions :=
                  [("happy", 9/10), ("neutral", 1/20), ("sad", 1/20)] }) =
      some { width := vd.w, height := vd.h
             content := [DrawOp.box (resizeBox b idim vd),
               DrawOp.strokeTextOp "happy: 90%" ((vd.w - m "happy: 90%") / 2) 50,
               DrawOp.fillTextOp "happy: 90%" ((vd.w - m "happy: 90%") / 2) 50] } := by
  simp only [detectIteration, dominant_happy_neutral_sad, text_happy90,
    List.nil_append, List.singleton_append]

/-- C4: the model-readiness flag never reverts (every step preserves
`modelsLoaded = true`), flips from false to true at most once along any run
from mount, and when no load ever succeeds — in particular when either of
the two model loads fails, so `Promise.all` rejects and `setModelsLoaded`
is never called — the flag stays false, the detection loop is never
started, and the UI keeps showing the loading overlay. -/
theorem models_loaded_monotone_fail_closed :
    (∀ (s : FDState) (e : FDEvent), s.modelsLoaded = true →
      (fdStep s e).modelsLoaded = true) ∧
    (∀ evs : List FDEvent, mlFlips fdInit evs ≤ 1) ∧
    (∀ evs : List FDEvent,
      (∀ e ∈ evs, e ≠ FDEvent.modelsResult true) →
      (fdRun evs).modelsLoaded = false ∧ (fdRun evs).loopStarted = false ∧
        showsLoadingOverlay (fdRun evs) = true) := by
  refine ⟨fdStep_ml_mono, fun evs => mlFlips_le_one evs fdInit, ?_⟩
  intro evs hev
  have h := fdFoldl_fail_closed evs fdInit rfl rfl hev
  have h1 : (fdRun evs).modelsLoaded = false := h.1
  have h2 : (fdRun evs).loopStarted = false := h.2
  exact ⟨h1, h2, by simp [showsLoadingOverlay, h1]⟩

/-- Witness for C4: a run in which the model load fails and the video then
starts playing; readiness stays false, the loop never starts and the
loading overlay stays up. -/
theorem models_loaded_monotone_fail_closed_witness :
    (fdRun [FDEvent.modelsResult false, FDEvent.videoPlay]).modelsLoaded = false ∧
    (fdRun [FDEvent.modelsResult false, FDEvent.videoPlay]).loopStarted = false ∧
    showsLoadingOverlay (fdRun [FDEvent.modelsResult false, FDEvent.videoPlay]) = true :=
  models_loaded_monotone_fail_closed.2.2
    [FDEvent.modelsResult false, FDEvent.videoPlay] (by decide)

/-- C5: along every run of the detection loop — whatever interleaving of
promise resolutions, animation-frame callbacks and a cleanup the
environment produces — at most one inference call is ever in flight:
the iteration's drawing happens in the continuation of its own inference
(one atomic `resolve` step, so rendering is sequenced after that
iteration's result), and the next iteration is only scheduled by that same
continuation, after the previous inference completed. -/
theorem detection_loop_single_flight (evs : List LoopEvent) (s : LoopState)
    (hrun : runLoop evs = some s) : s.inFlight ≤ 1 := by
  have h := runLoop_inv evs s hrun
  have h1 := h.1
  omega

/-- Witness for C5 on the concrete run: first inference resolves, its
scheduled callback fires and starts the next inference. -/
theorem detection_loop_single_flight_witness :
    ({ inFlight := 1, scheduled := [], frameId := some 1, nextId := 2
       tornDown := false, postDraws := 0, postFires := 0 } : LoopState).inFlight ≤ 1 :=
  detection_loop_single_flight [LoopEvent.resolve true true, LoopEvent.fire true]
    { inFlight := 1, scheduled := [], frameId := some 1, nextId := 2
      tornDown := false, postDraws := 0, postFires := 0 } (by decide)

/-- C6, counterexample: cancel the loop while the first inference is still
mid-flight (`cleanup` fires before `resolve`).  `animationFrameId` is still
undefined, so the cleanup cancels nothing; the continuation then draws to
the canvas after teardown (`postDraws = 1`) and schedules a callback that
also fires after teardown (`postFires = 1`) — refuting the claim that no
further callback fires or draws to the drawing surface after teardown. -/
theorem midflight_cancel_leak_cex :
    runLoop [LoopEvent.cleanup, LoopEvent.resolve true true, LoopEvent.fire false] =
      some { inFlight := 0, scheduled := [], frameId := some 1, nextId := 2
             tornDown := true, postDraws := 1, postFires := 1 } := by
  decide

/-- C6, amended: when the loop is cancelled while no inference is mid-flight
(the loop is waiting on its scheduled animation frame), the pending
iteration is cancelled and nothing happens afterwards: no step is enabled
any more — no callback fires, nothing is drawn — and no post-teardown draw
or callback has been recorded.  Cancellation mid-flight, by contrast, lets
the in-flight continuation draw once more and schedule one further callback
(see the counterexample). -/
theorem quiescent_cancel_stops_loop (evs : List LoopEvent) (s s' : LoopState)
    (hrun : runLoop evs = some s) (hq : s.inFlight = 0)
    (hclean : loopStep s LoopEvent.cleanup = some s') :
    s'.scheduled = [] ∧ s'.postDraws = 0 ∧ s'.postFires = 0 ∧
      ∀ e, loopStep s' e = none := by
  have hinv := runLoop_inv evs s hrun
  simp only [loopStep] at hclean
  by_cases ht : s.tornDown
  · simp [ht] at hclean
  · rw [if_neg ht] at hclean
    obtain rfl := Option.some.inj hclean
    rw [Bool.not_eq_true] at ht
    obtain ⟨ha, hb, hc⟩ := hinv.2 ht
    have hsched : (match s.frameId with
        | some id => s.scheduled.erase id
        | none => s.scheduled) = [] := by
      cases hs : s.scheduled with
      | nil => cases s.frameId <;> simp [hs]
      | cons id rest =>
        have hfr : s.frameId = some id := ha id (by rw [hs]; exact List.mem_cons_self id rest)
        have hrest : rest = [] := by
          have := hinv.1
          rw [hs] at this
          simp only [List.length_cons] at this
          have : rest.length = 0 := by omega
          exact List.length_eq_zero.mp this
        rw [hfr, hrest]
        simp [List.erase_cons_head]
    refine ⟨hsched, hb, hc, ?_⟩
    intro e
    cases e with
    | resolve face ctxOk => simp [loopStep, hq]
    | fire guardOk => simp [loopStep, hsched]
    | cleanup => simp [loopStep]

/-- Witness for the amended C6: the first inference resolves with no face
(loop is now waiting on its animation frame, nothing in flight), then the
cleanup runs: the scheduled frame is cancelled and the loop is completely
stopped. -/
theorem quiescent_cancel_stops_loop_witness :
    (({ inFlight := 0, scheduled := [], frameId := some 1, nextId := 2
        tornDown := true, postDraws := 0, postFires := 0 } : LoopState).scheduled = [] ∧
      ({ inFlight := 0, scheduled := [], frameId := some 1, nextId := 2
         tornDown := true, postDraws := 0, postFires := 0 } : LoopState).postDraws = 0 ∧
      ({ inFlight := 0, scheduled := [], frameId := some 1, nextId := 2
         tornDown := true, postDraws := 0, postFires := 0 } : LoopState).postFires = 0) ∧
    loopStep { inFlight := 0, scheduled := [], frameId := some 1, nextId := 2
               tornDown := true, postDraws := 0, postFires := 0 }
      (LoopEvent.fire true) = none := by
  have h := quiescent_cancel_stops_loop [LoopEvent.resolve false true]
    { inFlight := 0, scheduled := [1], frameId := some 1, nextId := 2
      tornDown := false, postDraws := 0, postFires := 0 }
    { inFlight := 0, scheduled := [], frameId := some 1, nextId := 2
      tornDown := true, postDraws := 0, postFires := 0 }
    (by decide) (by decide) (by decide)
  exact ⟨⟨h.1, h.2.1, h.2.2.1⟩, h.2.2.2 (LoopEvent.fire true)⟩

/-- C7: evaluation of `WebcamCapture` at the failing input — mount (the
cleanup closure captures `stream = null` from the first render because the
effect has an empty dependency list), one successful `getUserMedia`
acquisition, then unmount.  The unmount cleanup finds its captured `stream`
to be null and stops nothing: stream 0 keeps a live camera track after the
view is torn down, contradicting the claim (and the code's own comments)
that the tracks are stopped when the owning view is torn down.  The
`FaceDetection` component's cleanup (lines 45-50) has the same stale
closure. -/
theorem unmount_leaves_track_live :
    wcRun [WCEvent.startVideo true true, WCEvent.unmount] =
      { stream := some 0, live := [0], cleanupCaptured := none
        nextStream := 1 } ∧
    ({ stream := some 0, live := [0], cleanupCaptured := none
       nextStream := 1 } : WCState).live ≠ [] := by
  refine ⟨?_, by simp⟩
  decide
